import Mathlib

/-!
# url-shortener: link store, short-code generation and request routing

A shallow embedding of `src/src/database_connection.cpp`, `src/src/storage.cpp`
and the routing step of `src/src/server.cpp`, followed by the properties the
specification states about them.

Conventions of the embedding.

* A `std::string` is a list of bytes (`CppString`).
* `DatabaseConnection` assembles each statement as text, by concatenation around
  single-quoted literals and without escaping, and hands the text to `txn.exec`.
  The embedding builds the same text.  What the server does with a text is not
  in the sources: it is the parameter `Database`, a function of the statement
  text and of the table.  General statements are made for every `Database`, under
  the contract they need: `Database.literal` (how the two statements are answered
  when their arguments contain neither a quote nor a NUL byte) or
  `Database.unique` (the table never holds two rows with one `short_url`, as the
  specification states).  Closed statements are evaluated on `reference_db`, which
  reads the statement text the way an SQL lexer does.
* The table `urls` is the list of its rows in insertion order.
* Whether plain `char` is signed is fixed by the compilation target, not by the
  sources; it is the parameter `char_signed`.  `unsigned long` is 64 bits wide
  (LP64).
* The random draw `dis(gen)` is an explicit argument `salt`.
* `nlohmann::json` is an external library: the parser is a parameter `parse`
  (`none` when it throws), and a response body is kept as the JSON value that
  `dump()` serialises.
* The mutex is not represented: every function is one uninterrupted call.
-/

namespace UrlShortener

/-! ## Data model -/

/-- A C++ `std::string`: a sequence of bytes. -/
abbrev CppString := List (Fin 256)

/-- Bytes of an ASCII string literal. -/
def ascii (s : String) : CppString :=
  s.toList.map (fun ch => Fin.ofNat ch.toNat)

/-- Exceptions that reach `Server::handle_request`; all derive from
`std::exception`. -/
inductive Exn where
  /-- A `std::runtime_error` with its message. -/
  | runtime_error (what : CppString)
  /-- The server rejected a statement: a `pqxx::sql_error` raised by `txn.exec`
  (syntax error, violated constraint). -/
  | sql_error
deriving DecidableEq, Repr

/-- One row of the table `urls`. -/
structure Link where
  short_url : CppString
  long_url : CppString
deriving DecidableEq, Repr

/-- The table `urls`: its rows, oldest first. -/
abbrev Table := List Link

/-- Values of `nlohmann::json`. -/
inductive Json where
  | null
  | boolean (b : Bool)
  | number (literal : CppString)
  | string (s : CppString)
  | array (items : List Json)
  | object (members : List (CppString × Json))

/-- The HTTP verbs of `boost::beast::http::verb` that matter to routing, and the rest. -/
inductive Verb where
  | delete_ | get | head | post | put | connect | options | trace | patch | unknown
deriving DecidableEq, Repr

/-- An `http::request<http::string_body>` as the router reads it. -/
structure Request where
  method : Verb
  target : CppString
  body : CppString
deriving DecidableEq, Repr

/-- The `http::status` values the router produces. -/
inductive Status where
  | ok | moved_permanently | bad_request | not_found | internal_server_error
deriving DecidableEq, Repr

/-- Numeric value of a status. -/
def Status.code : Status → Nat
  | .ok => 200
  | .moved_permanently => 301
  | .bad_request => 400
  | .not_found => 404
  | .internal_server_error => 500

/-- The `http::field` names the router sets. -/
inductive Field where
  | content_type | location
deriving DecidableEq, Repr

/-- An `http::response<http::string_body>` before `prepare_payload`: the body is
the JSON value whose `dump()` is sent. -/
structure Response where
  result : Status
  fields : List (Field × CppString)
  body : Json

/-! ## database_connection.cpp -/

/-- The server behind `pqxx::connection`, as `DatabaseConnection` uses it: what a
statement text does to the table `urls` and what it returns. -/
structure Database where
  /-- The sequence `pqxx::work txn(conn_); txn.exec(query); txn.commit();` of `save_url`:
  the exception of `txn.exec` if it throws, and the table afterwards. -/
  exec_commit : CppString → Table → Except Exn Unit × Table
  /-- The sequence `pqxx::work txn(conn_); auto result = txn.exec(query);` of
  `get_original_url`, the transaction being dropped on return: the first field of
  each row of the result, or the exception, and the table afterwards. -/
  exec_query : CppString → Table → Except Exn (List CppString) × Table

/-- The text `"INSERT INTO urls (short_url, long_url) VALUES ('" + short_url + "', '" +
long_url + "')"` of `save_url`. -/
def DatabaseConnection.insert_query (short_url long_url : CppString) : CppString :=
  ascii "INSERT INTO urls (short_url, long_url) VALUES ('" ++ short_url ++ ascii "', '" ++
    long_url ++ ascii "')"

/-- The text `"SELECT long_url FROM urls WHERE short_url = '" + short_url + "'"` of
`get_original_url`. -/
def DatabaseConnection.select_query (short_url : CppString) : CppString :=
  ascii "SELECT long_url FROM urls WHERE short_url = '" ++ short_url ++ ascii "'"

/-- Embedding of `DatabaseConnection::save_url`: the statement text is built and
executed; an exception of `txn.exec` propagates. -/
def DatabaseConnection.save_url (db : Database) (urls : Table) (short_url long_url : CppString) :
    Except Exn Unit × Table :=
  let query := DatabaseConnection.insert_query short_url long_url
  db.exec_commit query urls

/-- Embedding of `DatabaseConnection::get_original_url`: the statement text is built
and executed; the empty string when the result is empty, else `result[0][0]`; an
exception of `txn.exec` propagates. -/
def DatabaseConnection.get_original_url (db : Database) (urls : Table) (short_url : CppString) :
    Except Exn CppString × Table :=
  let query := DatabaseConnection.select_query short_url
  match db.exec_query query urls with
  | (.error e, urls') => (.error e, urls')
  | (.ok [], urls') => (.ok [], urls')
  | (.ok (first :: _), urls') => (.ok first, urls')

/-! ## storage.cpp -/

/-- The character for one digit, `0-9` then `a-f`. -/
def digit_char (d : Nat) : Fin 256 :=
  Fin.ofNat (if d < 10 then 48 + d else 87 + d)

/-- Digits of `n` in `base`, most significant first, no leading zeros, `0` for zero. -/
def render_digits (base : Nat) : Nat → Nat → CppString → CppString
  | 0, _, acc => acc
  | fuel + 1, n, acc =>
    if n / base = 0 then digit_char (n % base) :: acc
    else render_digits base fuel (n / base) (digit_char (n % base) :: acc)

/-- The function `std::to_string` on a non-negative `int`. -/
def to_string (n : Nat) : CppString :=
  render_digits 10 (n + 1) n []

/-- The text `oss << std::hex << hash` writes. -/
def to_hex (n : Nat) : CppString :=
  render_digits 16 (n + 1) n []

/-- Conversion of a `char` operand to `unsigned long` in `hash + c`: a signed
`char` of 128 or more is negative and wraps. -/
def char_to_ulong (char_signed : Bool) (c : Fin 256) : Nat :=
  if char_signed && decide (128 ≤ c.val) then 2 ^ 64 - 256 + c.val else c.val

/-- Embedding of `Storage::simple_hash`: `hash = ((hash << 5) + hash) + c` from 5381,
in `unsigned long` arithmetic. -/
def Storage.simple_hash (char_signed : Bool) (str : CppString) : Nat :=
  str.foldl
    (fun hash c =>
      ((hash * 2 ^ 5 % 2 ^ 64 + hash) % 2 ^ 64 + char_to_ulong char_signed c) % 2 ^ 64)
    5381

/-- Lines 78-84 of `Storage::shorten_url`: the code for a URL and a drawn salt. -/
def Storage.generate (char_signed : Bool) (long_url : CppString) (salt : Nat) : CppString :=
  let salt_s := to_string salt
  let input := long_url ++ salt_s
  let hash := Storage.simple_hash char_signed input
  (to_hex hash).take 8

/-- Embedding of `Storage::shorten_url`, with the store passed in and out and the
random draw as `salt`. -/
def Storage.shorten_url (db : Database) (char_signed : Bool) (urls : Table)
    (long_url short_path : CppString) (salt : Nat) : Except Exn CppString × Table :=
  if short_path ≠ [] then
    match DatabaseConnection.get_original_url db urls short_path with
    | (.error e, urls1) => (.error e, urls1)
    | (.ok existing_url, urls1) =>
      if existing_url ≠ [] then
        (.error (.runtime_error (ascii "The specified short path already exists.")), urls1)
      else
        match DatabaseConnection.save_url db urls1 short_path long_url with
        | (.error e, urls2) => (.error e, urls2)
        | (.ok _, urls2) => (.ok short_path, urls2)
  else
    let short_url := Storage.generate char_signed long_url salt
    match DatabaseConnection.save_url db urls short_url long_url with
    | (.error e, urls1) => (.error e, urls1)
    | (.ok _, urls1) => (.ok short_url, urls1)

/-- Embedding of `Storage::get_original_url`. -/
def Storage.get_original_url (db : Database) (urls : Table) (short_url : CppString) :
    Except Exn CppString × Table :=
  DatabaseConnection.get_original_url db urls short_url

/-- Modelled from the spec: `storage.h` is not among the sources; the one-argument
call `shorten_url(long_url)` passes the default `short_path`, the empty custom
path of the specification. -/
def Storage.short_path_default : CppString := []

/-! ## server.cpp -/

/-- Lexicographic `operator<` of `std::string`. -/
def CppString.less : CppString → CppString → Bool
  | [], [] => false
  | [], _ :: _ => true
  | _ :: _, [] => false
  | a :: as, b :: bs => if a.val < b.val then true else if b.val < a.val then false else CppString.less as bs

/-- Assignment `object[key] = value` in the key-ordered map behind a JSON object. -/
def Json.assign : List (CppString × Json) → CppString → Json → List (CppString × Json)
  | [], key, value => [(key, value)]
  | (k, v) :: rest, key, value =>
    if key = k then (key, value) :: rest
    else if CppString.less key k then (key, value) :: (k, v) :: rest
    else (k, v) :: Json.assign rest key value

/-- The method `contains(key)`: false on anything but an object. -/
def Json.contains : Json → CppString → Bool
  | .object members, key => members.any (fun m => decide (m.1 = key))
  | _, _ => false

/-- The value `parsed_json[key]` of an object that contains `key`. -/
def Json.member : Json → CppString → Option Json
  | .object members, key => (members.find? (fun m => decide (m.1 = key))).map Prod.snd
  | _, _ => none

/-- Embedding of `Server::make_json_response`, before `dump()`. -/
def Server.make_json_response (status key value : CppString) : Json :=
  .object (Json.assign (Json.assign [] (ascii "status") (.string status)) key (.string value))

/-- Embedding of `Server::make_json_error`, before `dump()`. -/
def Server.make_json_error (message : CppString) : Json :=
  .object (Json.assign (Json.assign [] (ascii "status") (.string (ascii "error")))
    (ascii "message") (.string message))

/-- Embedding of `Server::extract_json_value`: the string under `key`; the empty string when
parsing throws, the key is absent, or `get<std::string>()` throws on a value that
is not a string. -/
def Server.extract_json_value (parse : CppString → Option Json) (json_str key : CppString) :
    CppString :=
  match parse json_str with
  | none => []
  | some parsed_json =>
    if parsed_json.contains key then
      match parsed_json.member key with
      | some (.string s) => s
      | _ => []
    else []

/-- The `try` block of the read handler in `Server::handle_request`. -/
def Server.route (parse : CppString → Option Json) (db : Database) (char_signed : Bool)
    (urls : Table) (request : Request) (salt : Nat) : Except Exn Response × Table :=
  if request.method = .post ∧ request.target = ascii "/shorten" then
    let body := request.body
    let long_url := Server.extract_json_value parse body (ascii "url")
    let short_path := Server.extract_json_value parse body (ascii "short_path")
    if long_url = [] then
      (.error (.runtime_error (ascii "Missing URL in request body")), urls)
    else
      match (if short_path = [] then
          Storage.shorten_url db char_signed urls long_url Storage.short_path_default salt
        else
          Storage.shorten_url db char_signed urls long_url short_path salt) with
      | (.error e, urls') => (.error e, urls')
      | (.ok short_url, urls') =>
        (.ok { result := .ok
               fields := [(.content_type, ascii "application/json")]
               body := Server.make_json_response (ascii "success") (ascii "short_url") short_url },
         urls')
  else if request.method = .get ∧ List.isPrefixOf (ascii "/shorten/") request.target then
    let short_url := request.target.drop 9
    match Storage.get_original_url db urls short_url with
    | (.error e, urls') => (.error e, urls')
    | (.ok long_url, urls') =>
      if long_url ≠ [] then
        (.ok { result := .moved_permanently
               fields := [(.location, long_url)]
               body := Server.make_json_response (ascii "success") (ascii "short_url")
                 short_url },
         urls')
      else
        (.ok { result := .not_found
               fields := [(.content_type, ascii "application/json")]
               body := Server.make_json_error (ascii "Short URL not found") },
         urls')
  else
    (.ok { result := .bad_request
           fields := [(.content_type, ascii "application/json")]
           body := Server.make_json_error (ascii "Invalid request method or target") },
     urls)

/-- The routing step of `Server::handle_request`: the `try` block and its
`catch (const std::exception&)`. -/
def Server.handle_request (parse : CppString → Option Json) (db : Database)
    (char_signed : Bool) (urls : Table) (request : Request) (salt : Nat) : Response × Table :=
  match Server.route parse db char_signed urls request salt with
  | (.ok response, urls') => (response, urls')
  | (.error _, urls') =>
    ({ result := .internal_server_error
       fields := [(.content_type, ascii "application/json")]
       body := Server.make_json_error (ascii "Server error") },
     urls')

/-! ## The database: contracts and a reference -/

/-- A string that, between single quotes, is read by the server as a literal with
exactly these bytes: it contains no quote character and no NUL byte (the text
reaches the server as a C string). -/
def sql_plain (s : CppString) : Prop :=
  ∀ b ∈ s, b.val ≠ 39 ∧ b.val ≠ 0

/-- The long URLs of the rows with the given `short_url`, oldest first. -/
def matching_rows (urls : Table) (short_url : CppString) : List CppString :=
  (urls.filter (fun row => decide (row.short_url = short_url))).map Link.long_url

/-- Contract of a database for the two statements when their arguments are plain:
the `SELECT` returns the long URLs of the rows with that `short_url` and changes
nothing; the `INSERT` appends the row, or is rejected with the table unchanged, and
only if the table already has a row with that `short_url`. -/
def Database.literal (db : Database) : Prop :=
  (∀ (urls : Table) (a : CppString), sql_plain a →
    db.exec_query (DatabaseConnection.select_query a) urls = (.ok (matching_rows urls a), urls)) ∧
  (∀ (urls : Table) (a b : CppString), sql_plain a → sql_plain b →
    db.exec_commit (DatabaseConnection.insert_query a b) urls =
        (.ok (), urls ++ [Link.mk a b]) ∨
      (db.exec_commit (DatabaseConnection.insert_query a b) urls = (.error .sql_error, urls) ∧
        ∃ row ∈ urls, row.short_url = a))

/-- Modelled from the spec: the declaration of the table `urls` is not among the
sources; the specification states that `short_code` is unique in the persisted
table.  No statement leaves the table with two rows of one `short_url`. -/
def Database.unique (db : Database) : Prop :=
  ∀ (query : CppString) (urls : Table), (urls.map Link.short_url).Nodup →
    ((db.exec_commit query urls).2.map Link.short_url).Nodup ∧
    ((db.exec_query query urls).2.map Link.short_url).Nodup

/-- The statement text as the C string the client library passes on: it ends at
the first NUL byte. -/
def c_str (query : CppString) : CppString :=
  query.takeWhile (fun b => decide (b.val ≠ 0))

/-- The text after a given head, if the text starts with it. -/
def after_head (head text : CppString) : Option CppString :=
  if List.isPrefixOf head text then some (text.drop head.length) else none

/-- SQL lexing of a string literal whose opening quote has been read: the value of
the literal and the text after its closing quote.  Two quotes in a row stand for
one quote inside the literal; the text ending before a closing quote is an error. -/
def read_quoted : CppString → Option (CppString × CppString)
  | [] => none
  | c :: rest =>
    if c.val = 39 then
      match rest with
      | [] => some ([], [])
      | d :: rest2 =>
        if d.val = 39 then (read_quoted rest2).map (fun p => (c :: p.1, p.2))
        else some ([], d :: rest2)
    else (read_quoted rest).map (fun p => (c :: p.1, p.2))

/-- Rows of a `VALUES` list in the layout the program writes: `('k', 'v')`, then
either the end of the text or `, ` and further rows. -/
def read_rows : Nat → CppString → Option (List Link)
  | 0, _ => none
  | fuel + 1, text => do
    let s1 ← after_head (ascii "('") text
    let (key, s2) ← read_quoted s1
    let s3 ← after_head (ascii ", '") s2
    let (value, s4) ← read_quoted s3
    let s5 ← after_head (ascii ")") s4
    if s5 = [] then some [Link.mk key value]
    else do
      let s6 ← after_head (ascii ", ") s5
      let more ← read_rows fuel s6
      some (Link.mk key value :: more)

/-- A reference database for closed statements.  It accepts the two statements in
the layout the program writes, with the literals read as an SQL lexer reads them:
an `INSERT` of one or more rows, rejected as a whole under the uniqueness
constraint when a key is already present or occurs twice; a `SELECT` by one
literal.  Any other text is answered with an error, which a server need not do;
the general statements therefore speak of every `Database`, not of this one. -/
def reference_db (unique : Bool) : Database where
  exec_commit query urls :=
    match (after_head (ascii "INSERT INTO urls (short_url, long_url) VALUES ") (c_str query)).bind
        (fun text => read_rows (text.length + 1) text) with
    | none => (.error .sql_error, urls)
    | some rows =>
      if unique && (rows.any (fun r => urls.any (fun row => decide (row.short_url = r.short_url)))
          || !decide ((rows.map Link.short_url).Nodup)) then
        (.error .sql_error, urls)
      else (.ok (), urls ++ rows)
  exec_query query urls :=
    match (after_head (ascii "SELECT long_url FROM urls WHERE short_url = '") (c_str query)).bind
        read_quoted with
    | some (key, []) => (.ok (matching_rows urls key), urls)
    | _ => (.error .sql_error, urls)

/-! ## Reference definitions for the statements -/

/-- Spec-worded DJB2: `h` starts at 5381 and each byte `c`, taken as its value
0..255, turns it into `(h * 33 + c) mod 2^64`. -/
def djb2 (bytes : CppString) : Nat :=
  bytes.foldl (fun h c => (h * 33 + c.val) % 2 ^ 64) 5381

set_option maxRecDepth 1000000

/-! ## The reference database meets the contracts -/

theorem takeWhile_all {α : Type} (p : α → Bool) (l : List α) (h : ∀ x ∈ l, p x = true) :
    l.takeWhile p = l := by
  induction l with
  | nil => rfl
  | cons x rest ih =>
    have hx := h x (List.mem_cons_self x rest)
    simp only [List.takeWhile_cons, hx, if_true]
    rw [ih (fun y hy => h y (List.mem_cons_of_mem x hy))]

theorem after_head_append (head text : CppString) :
    after_head head (head ++ text) = some text := by
  simp [after_head]

theorem read_quoted_plain (a rest : CppString) (ha : ∀ b ∈ a, b.val ≠ 39)
    (hrest : ∀ d rest2, rest = d :: rest2 → d.val ≠ 39) :
    read_quoted (a ++ (39 : Fin 256) :: rest) = some (a, rest) := by
  have h39 : ((39 : Fin 256)).val = 39 := rfl
  induction a with
  | nil =>
    cases rest with
    | nil => simp [read_quoted, h39]
    | cons d rest2 =>
      have hd := hrest d rest2 rfl
      simp [read_quoted, hd, h39]
  | cons c a ih =>
    have hc := ha c (List.mem_cons_self c a)
    have ih2 := ih (fun b hb => ha b (List.mem_cons_of_mem c hb))
    rw [List.cons_append]
    unfold read_quoted
    simp [hc, ih2]

theorem c_str_plain (text : CppString) (h : ∀ b ∈ text, b.val ≠ 0) : c_str text = text := by
  unfold c_str
  apply takeWhile_all
  intro b hb
  simpa using h b hb

theorem select_query_eval (unique : Bool) (urls : Table) (a : CppString) (ha : sql_plain a) :
    (reference_db unique).exec_query (DatabaseConnection.select_query a) urls =
      (.ok (matching_rows urls a), urls) := by
  have hnul : ∀ b ∈ DatabaseConnection.select_query a, b.val ≠ 0 := by
    intro b hb
    simp only [DatabaseConnection.select_query, List.mem_append] at hb
    rcases hb with (hb | hb) | hb
    · revert b; decide!
    · exact (ha b hb).2
    · revert b; decide!
  have hq : ascii "'" = [(39 : Fin 256)] := by decide!
  simp only [reference_db, c_str_plain _ hnul]
  simp only [DatabaseConnection.select_query, List.append_assoc, after_head_append,
    Option.some_bind, hq]
  rw [read_quoted_plain a [] (fun b hb => (ha b hb).1) (by intro d r h; cases h)]

theorem read_rows_single (a b : CppString) (ha : sql_plain a) (hb : sql_plain b) (fuel : Nat) :
    read_rows (fuel + 1) ([40, 39] ++ (a ++ ((39 : Fin 256) :: [44, 32, 39] ++
      (b ++ (39 : Fin 256) :: [41])))) = some [Link.mk a b] := by
  have h1 : ascii "('" = [40, 39] := by decide!
  have h2 : ascii ", '" = [44, 32, 39] := by decide!
  have h3 : ascii ")" = [41] := by decide!
  have hk : read_quoted (a ++ (39 : Fin 256) :: ([44, 32, 39] ++ (b ++ (39 : Fin 256) :: [41]))) =
      some (a, [44, 32, 39] ++ (b ++ (39 : Fin 256) :: [41])) :=
    read_quoted_plain a _ (fun x hx => (ha x hx).1) (by intro d r h; cases h; decide)
  have hv : read_quoted (b ++ (39 : Fin 256) :: [41]) = some (b, [41]) :=
    read_quoted_plain b _ (fun x hx => (hb x hx).1) (by intro d r h; cases h; decide)
  have e41 : after_head [41] [41] = some ([] : CppString) := by decide
  simp only [read_rows, h1, h2, h3, after_head_append, List.cons_append, List.nil_append]
  simp only [Option.bind_eq_bind, Option.some_bind]
  have hk2 : read_quoted (a ++ (39 : Fin 256) :: 44 :: 32 :: 39 :: (b ++ [39, 41])) =
      some (a, [44, 32, 39] ++ (b ++ (39 : Fin 256) :: [41])) := hk
  have e1 : after_head [40, 39] (40 :: 39 :: (a ++ (39 : Fin 256) :: 44 :: 32 :: 39 ::
      (b ++ [39, 41]))) = some (a ++ (39 : Fin 256) :: 44 :: 32 :: 39 :: (b ++ [39, 41])) :=
    after_head_append [40, 39] _
  rw [e1]
  simp only [Option.some_bind, hk2]
  rw [after_head_append]
  simp only [Option.some_bind, hv, e41]
  simp

theorem insert_query_eval (unique : Bool) (urls : Table) (a b : CppString)
    (ha : sql_plain a) (hb : sql_plain b) :
    (reference_db unique).exec_commit (DatabaseConnection.insert_query a b) urls =
      if unique && urls.any (fun row => decide (row.short_url = a)) then
        (.error .sql_error, urls)
      else (.ok (), urls ++ [Link.mk a b]) := by
  have hnul : ∀ x ∈ DatabaseConnection.insert_query a b, x.val ≠ 0 := by
    intro x hx
    simp only [DatabaseConnection.insert_query, List.mem_append] at hx
    rcases hx with (((hx | hx) | hx) | hx) | hx
    · revert x; decide!
    · exact (ha x hx).2
    · revert x; decide!
    · exact (hb x hx).2
    · revert x; decide!
  have hhead : ascii "INSERT INTO urls (short_url, long_url) VALUES ('" =
      ascii "INSERT INTO urls (short_url, long_url) VALUES " ++ [40, 39] := by decide!
  have hmid : ascii "', '" = (39 : Fin 256) :: [44, 32, 39] := by decide!
  have htail : ascii "')" = (39 : Fin 256) :: [41] := by decide!
  have htext : DatabaseConnection.insert_query a b =
      ascii "INSERT INTO urls (short_url, long_url) VALUES " ++
        ([40, 39] ++ (a ++ ((39 : Fin 256) :: [44, 32, 39] ++ (b ++ (39 : Fin 256) :: [41])))) := by
    simp only [DatabaseConnection.insert_query, hhead, hmid, htail, List.append_assoc,
      List.cons_append, List.nil_append]
  simp only [reference_db, c_str_plain _ hnul]
  rw [htext, after_head_append]
  simp only [Option.some_bind, read_rows_single a b ha hb]
  simp

theorem reference_db_literal (unique : Bool) : (reference_db unique).literal := by
  refine ⟨fun urls a ha => select_query_eval unique urls a ha, ?_⟩
  intro urls a b ha hb
  rw [insert_query_eval unique urls a b ha hb]
  by_cases h : (unique && urls.any (fun row => decide (row.short_url = a))) = true
  · right
    refine ⟨by simp [h], ?_⟩
    simp only [Bool.and_eq_true, List.any_eq_true, decide_eq_true_eq] at h
    exact h.2
  · left
    simp [h]

theorem render_digits_acc (base : Nat) :
    ∀ (fuel n : Nat) (acc : CppString),
      render_digits base fuel n acc = render_digits base fuel n [] ++ acc := by
  intro fuel
  induction fuel with
  | zero => intro n acc; simp [render_digits]
  | succ fuel ih =>
    intro n acc
    unfold render_digits
    by_cases h : n / base = 0
    · simp [h]
    · simp only [h, if_false]
      rw [ih (n / base) (digit_char (n % base) :: acc), ih (n / base) [digit_char (n % base)]]
      simp

theorem render_digits_fuel (base : Nat) (hb : 2 ≤ base) :
    ∀ (fuel fuel2 n : Nat) (acc : CppString), n < fuel → n < fuel2 →
      render_digits base fuel n acc = render_digits base fuel2 n acc := by
  intro fuel
  induction fuel with
  | zero => intro fuel2 n acc h; omega
  | succ fuel ih =>
    intro fuel2 n acc h h2
    cases fuel2 with
    | zero => omega
    | succ fuel2 =>
      unfold render_digits
      by_cases hz : n / base = 0
      · simp [hz]
      · simp only [hz, if_false]
        have hpos : 0 < n := by
          rcases Nat.eq_zero_or_pos n with h0 | h0
          · subst h0; simp at hz
          · exact h0
        have hlt : n / base < n := Nat.div_lt_self hpos (by omega)
        exact ih fuel2 (n / base) _ (by omega) (by omega)

theorem render_digits_small (base n : Nat) (hn : n < base) :
    render_digits base (n + 1) n [] = [digit_char n] := by
  unfold render_digits
  simp [Nat.div_eq_of_lt hn, Nat.mod_eq_of_lt hn]

theorem render_digits_step (base n : Nat) (hb : 2 ≤ base) (hn : base ≤ n) :
    render_digits base (n + 1) n [] =
      render_digits base (n / base + 1) (n / base) [] ++ [digit_char (n % base)] := by
  have hz : n / base ≠ 0 := by
    have : 0 < n / base := Nat.div_pos hn (by omega)
    omega
  have hlt : n / base < n := Nat.div_lt_self (by omega) (by omega)
  conv_lhs => unfold render_digits
  simp only [hz, if_false]
  rw [render_digits_acc, render_digits_fuel base hb n (n / base + 1) (n / base) [] hlt (by omega)]

theorem to_string_four (s : Nat) (h1 : 1000 ≤ s) (h2 : s ≤ 9999) :
    to_string s =
      [digit_char (s / 1000), digit_char (s / 100 % 10), digit_char (s / 10 % 10),
        digit_char (s % 10)] := by
  unfold to_string
  rw [render_digits_step 10 s (by omega) (by omega),
    render_digits_step 10 (s / 10) (by omega) (by omega),
    render_digits_step 10 (s / 10 / 10) (by omega) (by omega),
    render_digits_small 10 (s / 10 / 10 / 10) (by omega)]
  have e1 : s / 10 / 10 / 10 = s / 1000 := by omega
  have e2 : s / 10 / 10 % 10 = s / 100 % 10 := by omega
  simp [e1, e2]

theorem to_hex_step (n : Nat) (hn : 16 ≤ n) :
    to_hex n = to_hex (n / 16) ++ [digit_char (n % 16)] := by
  unfold to_hex
  exact render_digits_step 16 n (by omega) hn

theorem to_hex_high (n : Nat) (hn : 16 ^ 8 ≤ n) :
    ∃ low : CppString, to_hex n = to_hex (n / 16 ^ 8) ++ low := by
  have s1 := to_hex_step n (by omega)
  have s2 := to_hex_step (n / 16) (by omega)
  have s3 := to_hex_step (n / 16 / 16) (by omega)
  have s4 := to_hex_step (n / 16 / 16 / 16) (by omega)
  have s5 := to_hex_step (n / 16 / 16 / 16 / 16) (by omega)
  have s6 := to_hex_step (n / 16 / 16 / 16 / 16 / 16) (by omega)
  have s7 := to_hex_step (n / 16 / 16 / 16 / 16 / 16 / 16) (by omega)
  have s8 := to_hex_step (n / 16 / 16 / 16 / 16 / 16 / 16 / 16) (by omega)
  have e : n / 16 / 16 / 16 / 16 / 16 / 16 / 16 / 16 = n / 16 ^ 8 := by omega
  rw [e] at s8
  refine ⟨[digit_char (n / 16 / 16 / 16 / 16 / 16 / 16 / 16 % 16),
    digit_char (n / 16 / 16 / 16 / 16 / 16 / 16 % 16),
    digit_char (n / 16 / 16 / 16 / 16 / 16 % 16), digit_char (n / 16 / 16 / 16 / 16 % 16),
    digit_char (n / 16 / 16 / 16 % 16), digit_char (n / 16 / 16 % 16),
    digit_char (n / 16 % 16), digit_char (n % 16)], ?_⟩
  rw [s1, s2, s3, s4, s5, s6, s7, s8]
  simp

theorem digit_char_val (d : Nat) (hd : d < 16) :
    (digit_char d).val = if d < 10 then 48 + d else 87 + d := by
  unfold digit_char
  split
  · simp [Fin.ofNat]; omega
  · simp [Fin.ofNat]; omega

theorem render_digits_range (base : Nat) (hb : 2 ≤ base) (hb16 : base ≤ 16) :
    ∀ (fuel n : Nat) (acc : CppString), (∀ b ∈ acc, 48 ≤ b.val ∧ b.val < 128) →
      ∀ b ∈ render_digits base fuel n acc, 48 ≤ b.val ∧ b.val < 128 := by
  intro fuel
  induction fuel with
  | zero => intro n acc hacc; simpa [render_digits] using hacc
  | succ fuel ih =>
    intro n acc hacc
    have hd : 48 ≤ (digit_char (n % base)).val ∧ (digit_char (n % base)).val < 128 := by
      have hlt : n % base < 16 := by
        have := Nat.mod_lt n (show 0 < base by omega)
        omega
      rw [digit_char_val _ hlt]
      split <;> omega
    have hacc2 : ∀ b ∈ digit_char (n % base) :: acc, 48 ≤ b.val ∧ b.val < 128 := by
      intro b hb
      rcases List.mem_cons.mp hb with rfl | hb
      · exact hd
      · exact hacc b hb
    unfold render_digits
    by_cases hz : n / base = 0
    · simpa [hz] using hacc2
    · simp only [hz, if_false]
      exact ih (n / base) _ hacc2

theorem to_string_ascii (s : Nat) : ∀ b ∈ to_string s, b.val < 128 := fun b hb =>
  (render_digits_range 10 (by omega) (by omega) (s + 1) s [] (by simp) b hb).2

theorem to_hex_range (n : Nat) : ∀ b ∈ to_hex n, 48 ≤ b.val ∧ b.val < 128 :=
  render_digits_range 16 (by omega) (by omega) (n + 1) n [] (by simp)

/-! ## The hash and the generated code -/

theorem simple_hash_step (char_signed : Bool) (h : Nat) (c : Fin 256)
    (hc : char_signed = false ∨ c.val < 128) :
    ((h * 2 ^ 5 % 2 ^ 64 + h) % 2 ^ 64 + char_to_ulong char_signed c) % 2 ^ 64 =
      (h * 33 + c.val) % 2 ^ 64 := by
  have hcu : char_to_ulong char_signed c = c.val := by
    unfold char_to_ulong
    rcases hc with hc | hc
    · simp [hc]
    · have : ¬ 128 ≤ c.val := by omega
      simp [this]
  rw [hcu]
  omega

theorem simple_hash_eq_djb2 (char_signed : Bool) (str : CppString)
    (h : char_signed = false ∨ ∀ b ∈ str, b.val < 128) :
    Storage.simple_hash char_signed str = djb2 str := by
  unfold Storage.simple_hash djb2
  generalize 5381 = init
  induction str generalizing init with
  | nil => rfl
  | cons c rest ih =>
    simp only [List.foldl_cons]
    have hc : char_signed = false ∨ c.val < 128 := by
      rcases h with h | h
      · exact Or.inl h
      · exact Or.inr (h c (List.mem_cons_self c rest))
    rw [simple_hash_step char_signed init c hc]
    apply ih
    rcases h with h | h
    · exact Or.inl h
    · exact Or.inr (fun b hb => h b (List.mem_cons_of_mem c hb))

theorem djb2_append (a b : CppString) :
    djb2 (a ++ b) = b.foldl (fun h c => (h * 33 + c.val) % 2 ^ 64) (djb2 a) := by
  simp [djb2, List.foldl_append]

theorem generate_eq_djb2 (char_signed : Bool) (u : CppString) (s : Nat)
    (h : char_signed = false ∨ ∀ b ∈ u, b.val < 128) :
    Storage.generate char_signed u s = (to_hex (djb2 (u ++ to_string s))).take 8 := by
  have hin : char_signed = false ∨ ∀ b ∈ u ++ to_string s, b.val < 128 := by
    rcases h with h | h
    · exact Or.inl h
    · right
      intro b hb
      rcases List.mem_append.mp hb with hb | hb
      · exact h b hb
      · exact to_string_ascii s b hb
  simp only [Storage.generate]
  rw [simple_hash_eq_djb2 char_signed _ hin]

theorem hash_tail_example_com (a b c d : Nat) (ha : a ≤ 9) (hb : b ≤ 9) (hc : c ≤ 9)
    (hd : d ≤ 9) :
    ((((16156334705266854486 * 33 + (48 + a)) % 2 ^ 64 * 33 + (48 + b)) % 2 ^ 64 * 33 +
      (48 + c)) % 2 ^ 64 * 33 + (48 + d)) % 2 ^ 64 =
      1602732652235024918 + 35937 * a + 1089 * b + 33 * c + d := by
  have e1 : (16156334705266854486 * 33 + (48 + a)) % 2 ^ 64 = 16650211209938752838 + a := by
    omega
  rw [e1]
  have e2 : ((16650211209938752838 + a) * 33 + (48 + b)) % 2 ^ 64 =
      14501391790401846838 + 33 * a + b := by
    omega
  rw [e2]
  have e3 : ((14501391790401846838 + 33 * a + b) * 33 + (48 + c)) % 2 ^ 64 =
      17377327240522155302 + 1089 * a + 33 * b + c := by
    omega
  rw [e3]
  omega

/-- The code generated for `http://example.com` is `163e0cdb` whatever the salt: the
four salt digits move the hash by less than the ninth hexadecimal digit is worth. -/
theorem generate_example_com (char_signed : Bool) (salt : Nat) (h1 : 1000 ≤ salt) (h2 : salt ≤ 9999) :
    Storage.generate char_signed (ascii "http://example.com") salt = ascii "163e0cdb" := by
  have hascii : ∀ b ∈ ascii "http://example.com", b.val < 128 := by decide!
  rw [generate_eq_djb2 char_signed _ salt (Or.inr hascii), djb2_append, to_string_four salt h1 h2]
  have h0 : djb2 (ascii "http://example.com") = 16156334705266854486 := by decide!
  rw [h0]
  simp only [List.foldl_cons, List.foldl_nil]
  have d1 : (digit_char (salt / 1000)).val = 48 + salt / 1000 := by
    rw [digit_char_val _ (by omega)]; simp; omega
  have d2 : (digit_char (salt / 100 % 10)).val = 48 + salt / 100 % 10 := by
    rw [digit_char_val _ (by omega)]; simp; omega
  have d3 : (digit_char (salt / 10 % 10)).val = 48 + salt / 10 % 10 := by
    rw [digit_char_val _ (by omega)]; simp; omega
  have d4 : (digit_char (salt % 10)).val = 48 + salt % 10 := by
    rw [digit_char_val _ (by omega)]; simp; omega
  rw [d1, d2, d3, d4,
    hash_tail_example_com (salt / 1000) (salt / 100 % 10) (salt / 10 % 10) (salt % 10)
      (by omega) (by omega) (by omega) (by omega)]
  generalize hH : 1602732652235024918 + 35937 * (salt / 1000) + 1089 * (salt / 100 % 10) +
    33 * (salt / 10 % 10) + salt % 10 = H
  have hlo : 1602732652235024918 ≤ H := by omega
  have hhi : H ≤ 1602732652235360819 := by omega
  obtain ⟨low, hlow⟩ := to_hex_high H (by omega)
  have hq : H / 16 ^ 8 = 373165275 := by omega
  have hc : to_hex 373165275 = [49, 54, 51, 101, 48, 99, 100, 98] := by decide!
  have ha : ascii "163e0cdb" = [49, 54, 51, 101, 48, 99, 100, 98] := by decide
  rw [hlow, hq, hc, ha]
  rfl

theorem generate_plain (char_signed : Bool) (u : CppString) (salt : Nat) :
    sql_plain (Storage.generate char_signed u salt) := by
  intro b hb
  have hmem : b ∈ to_hex (Storage.simple_hash char_signed (u ++ to_string salt)) :=
    List.mem_of_mem_take hb
  have := to_hex_range _ b hmem
  omega

/-! ## Lookups under the literal contract -/

theorem matching_rows_absent (urls : Table) (c : CppString)
    (h : ∀ row ∈ urls, row.short_url ≠ c) : matching_rows urls c = [] := by
  simp only [matching_rows, List.map_eq_nil_iff, List.filter_eq_nil_iff]
  intro row hrow
  simpa using h row hrow

theorem matching_rows_find (urls : Table) (c : CppString) (link : Link)
    (h : urls.find? (fun row => decide (row.short_url = c)) = some link) :
    ∃ more, matching_rows urls c = link.long_url :: more := by
  induction urls with
  | nil => simp at h
  | cons row rest ih =>
    by_cases hk : row.short_url = c
    · simp [List.find?, hk] at h
      subst h
      exact ⟨matching_rows rest c, by simp [matching_rows, hk]⟩
    · simp [List.find?, hk] at h
      rcases ih h with ⟨more, hmore⟩
      exact ⟨more, by simpa [matching_rows, hk] using hmore⟩

theorem get_original_url_literal (db : Database) (hdb : db.literal) (urls : Table)
    (c : CppString) (hc : sql_plain c) :
    DatabaseConnection.get_original_url db urls c =
      (.ok (match matching_rows urls c with
        | [] => []
        | first :: _ => first), urls) := by
  simp only [DatabaseConnection.get_original_url, hdb.1 urls c hc]
  cases matching_rows urls c <;> rfl

theorem get_original_url_found (db : Database) (hdb : db.literal) (urls : Table)
    (c : CppString) (hc : sql_plain c) (link : Link)
    (h : urls.find? (fun row => decide (row.short_url = c)) = some link) :
    Storage.get_original_url db urls c = (.ok link.long_url, urls) := by
  rcases matching_rows_find urls c link h with ⟨more, hmore⟩
  rw [Storage.get_original_url, get_original_url_literal db hdb urls c hc, hmore]

theorem get_original_url_absent (db : Database) (hdb : db.literal) (urls : Table)
    (c : CppString) (hc : sql_plain c) (h : ∀ row ∈ urls, row.short_url ≠ c) :
    Storage.get_original_url db urls c = (.ok [], urls) := by
  rw [Storage.get_original_url, get_original_url_literal db hdb urls c hc,
    matching_rows_absent urls c h]

/-! ## Outcomes of `shorten_url` -/

theorem shorten_url_generated_result (db : Database) (char_signed : Bool) (urls : Table)
    (u : CppString) (salt : Nat) :
    (Storage.shorten_url db char_signed urls u [] salt).1 =
        .ok (Storage.generate char_signed u salt) ∨
      ∃ e, (Storage.shorten_url db char_signed urls u [] salt).1 = .error e := by
  simp only [Storage.shorten_url, ne_eq, not_true_eq_false, if_false]
  rcases DatabaseConnection.save_url db urls (Storage.generate char_signed u salt) u with
    ⟨_ | _, _⟩
  · right; exact ⟨_, rfl⟩
  · left; rfl

theorem shorten_url_generated_literal (db : Database) (hdb : db.literal) (char_signed : Bool)
    (urls : Table) (u : CppString) (salt : Nat) (hu : sql_plain u) :
    Storage.shorten_url db char_signed urls u [] salt =
        (.ok (Storage.generate char_signed u salt),
          urls ++ [Link.mk (Storage.generate char_signed u salt) u]) ∨
      (Storage.shorten_url db char_signed urls u [] salt = (.error .sql_error, urls) ∧
        ∃ row ∈ urls, row.short_url = Storage.generate char_signed u salt) := by
  rcases hdb.2 urls (Storage.generate char_signed u salt) u
      (generate_plain char_signed u salt) hu with h | ⟨h, hrow⟩
  · left
    simp [Storage.shorten_url, DatabaseConnection.save_url, h]
  · right
    exact ⟨by simp [Storage.shorten_url, DatabaseConnection.save_url, h], hrow⟩

theorem make_json_response_success (code : CppString) :
    Server.make_json_response (ascii "success") (ascii "short_url") code =
      .object [(ascii "short_url", .string code), (ascii "status", .string (ascii "success"))] := by
  have hne : ascii "short_url" ≠ ascii "status" := by decide
  have hlt : CppString.less (ascii "short_url") (ascii "status") = true := by decide
  simp [Server.make_json_response, Json.assign, hne, hlt]

theorem make_json_error_members (message : CppString) :
    Server.make_json_error message =
      .object [(ascii "message", .string message), (ascii "status", .string (ascii "error"))] := by
  have hne : ascii "message" ≠ ascii "status" := by decide
  have hlt : CppString.less (ascii "message") (ascii "status") = true := by decide
  simp [Server.make_json_error, Json.assign, hne, hlt]

theorem member_contains (j : Json) (key : CppString) (v : Json)
    (h : j.member key = some v) : j.contains key = true := by
  cases j with
  | object members =>
    simp only [Json.member, Option.map_eq_some'] at h
    rcases h with ⟨m, hm, _⟩
    simp only [Json.contains, List.any_eq_true]
    have hk := List.find?_some hm
    exact ⟨m, List.mem_of_find?_eq_some hm, hk⟩
  | null => simp [Json.member] at h
  | boolean b => simp [Json.member] at h
  | number n => simp [Json.member] at h
  | string s => simp [Json.member] at h
  | array xs => simp [Json.member] at h

theorem extract_string (parse : CppString → Option Json) (body key s : CppString) (j : Json)
    (hp : parse body = some j) (hm : j.member key = some (.string s)) :
    Server.extract_json_value parse body key = s := by
  simp [Server.extract_json_value, hp, member_contains j key _ hm, hm]

theorem route_get (parse : CppString → Option Json) (db : Database) (char_signed : Bool)
    (urls : Table) (target body : CppString) (salt : Nat)
    (hpre : List.isPrefixOf (ascii "/shorten/") target = true) :
    Server.route parse db char_signed urls ⟨.get, target, body⟩ salt =
      match Storage.get_original_url db urls (target.drop 9) with
      | (.error e, urls') => (.error e, urls')
      | (.ok long_url, urls') =>
        if long_url ≠ [] then
          (.ok { result := .moved_permanently
                 fields := [(.location, long_url)]
                 body := Server.make_json_response (ascii "success") (ascii "short_url")
                   (target.drop 9) },
           urls')
        else
          (.ok { result := .not_found
                 fields := [(.content_type, ascii "application/json")]
                 body := Server.make_json_error (ascii "Short URL not found") },
           urls') := by
  simp only [Server.route, hpre, and_true, if_true]
  simp

/-! ## C1: a custom code that is already held -/

/-- C1, the code at failing inputs.  `shorten_url("", "abc")` on the empty store
stores a Link for `abc` whose long URL is empty.  On that store
`shorten_url("http://b", "abc")` finds the empty string, takes the code for free and
issues the `INSERT`: it is rejected by the database under the uniqueness constraint,
and appends a second row for `abc` without it.  `shorten_url("http://a", "a''b")`
stores a Link for `a'b`; on that store `shorten_url("http://b", "a'b")` sends a
malformed `SELECT` and `txn.exec` throws.  In no case is the conflict error raised. -/
theorem shorten_url_conflict_missed :
    Storage.shorten_url (reference_db true) true [] [] (ascii "abc") 1000 =
      (.ok (ascii "abc"), [⟨ascii "abc", []⟩]) ∧
    Storage.shorten_url (reference_db true) true [⟨ascii "abc", []⟩] (ascii "http://b")
        (ascii "abc") 1000 =
      (.error .sql_error, [⟨ascii "abc", []⟩]) ∧
    Storage.shorten_url (reference_db false) true [⟨ascii "abc", []⟩] (ascii "http://b")
        (ascii "abc") 1000 =
      (.ok (ascii "abc"), [⟨ascii "abc", []⟩, ⟨ascii "abc", ascii "http://b"⟩]) ∧
    Storage.shorten_url (reference_db true) true [] (ascii "http://a") (ascii "a''b") 1000 =
      (.ok (ascii "a''b"), [⟨ascii "a'b", ascii "http://a"⟩]) ∧
    Storage.shorten_url (reference_db true) true [⟨ascii "a'b", ascii "http://a"⟩]
        (ascii "http://b") (ascii "a'b") 1000 =
      (.error .sql_error, [⟨ascii "a'b", ascii "http://a"⟩]) := by
  refine ⟨by rfl, by rfl, by rfl, by rfl, by rfl⟩

/-! ## C2: a custom code that is free -/

/-- C2, the code at failing inputs, on the empty store with the free code `abc`.
For the long URL `it's` the `INSERT` text is malformed and `shorten_url` throws.
For the long URL `x'), ('k', '` the call returns `abc`, but the text is an `INSERT`
of two rows, and `get_original_url("abc")` then returns `x`. -/
theorem shorten_url_custom_quote :
    Storage.shorten_url (reference_db true) true [] (ascii "it's") (ascii "abc") 1000 =
      (.error .sql_error, []) ∧
    Storage.shorten_url (reference_db true) true [] (ascii "x'), ('k', '") (ascii "abc") 1000 =
      (.ok (ascii "abc"), [⟨ascii "abc", ascii "x"⟩, ⟨ascii "k", []⟩]) ∧
    Storage.get_original_url (reference_db true)
        [⟨ascii "abc", ascii "x"⟩, ⟨ascii "k", []⟩] (ascii "abc") =
      (.ok (ascii "x"), [⟨ascii "abc", ascii "x"⟩, ⟨ascii "k", []⟩]) := by
  refine ⟨by rfl, by rfl, by rfl⟩

/-! ## C3: resolving a generated code -/

/-- C3, the code at the failing input.  `http://example.com/a` and
`http://example.com/b` generate the same code `9df4afb6` (the salt is lost in the
truncation to the leading eight digits).  After the first URL is stored, shortening
the second one either returns `9df4afb6` while `get_original_url` still answers
`http://example.com/a` (no uniqueness constraint), or raises a database error
(uniqueness constraint). -/
theorem shorten_url_generated_collision :
    Storage.shorten_url (reference_db false) true [] (ascii "http://example.com/a") [] 1000 =
      (.ok (ascii "9df4afb6"), [⟨ascii "9df4afb6", ascii "http://example.com/a"⟩]) ∧
    Storage.shorten_url (reference_db false) true
        [⟨ascii "9df4afb6", ascii "http://example.com/a"⟩]
        (ascii "http://example.com/b") [] 9999 =
      (.ok (ascii "9df4afb6"),
        [⟨ascii "9df4afb6", ascii "http://example.com/a"⟩,
         ⟨ascii "9df4afb6", ascii "http://example.com/b"⟩]) ∧
    (Storage.get_original_url (reference_db false)
        [⟨ascii "9df4afb6", ascii "http://example.com/a"⟩,
         ⟨ascii "9df4afb6", ascii "http://example.com/b"⟩] (ascii "9df4afb6")).1 =
      .ok (ascii "http://example.com/a") ∧
    Storage.shorten_url (reference_db true) true
        [⟨ascii "9df4afb6", ascii "http://example.com/a"⟩]
        (ascii "http://example.com/b") [] 9999 =
      (.error .sql_error, [⟨ascii "9df4afb6", ascii "http://example.com/a"⟩]) := by
  refine ⟨by rfl, by rfl, by rfl, by rfl⟩

/-! ## C4: uniqueness of codes -/

/-- C5, as amended.  For every long URL `u` whose bytes are all below 128 (or on a
target where plain `char` is unsigned) and every salt `s`, the generated code is the
first 8 characters of the lowercase hexadecimal rendering of the DJB2 hash of the
bytes of `u` followed by the decimal digits of `s`; `Storage::shorten_url(u, "")`
returns that code unless `txn.exec` throws (for a plain `u`: unless the database
rejects the insert because the code is already held); and `Storage::simple_hash`
equals DJB2 on every such string. -/
theorem generated_code_is_djb2 (db : Database) (char_signed : Bool) (urls : Table)
    (u : CppString) (s : Nat)
    (h : char_signed = false ∨ ∀ b ∈ u, b.val < 128) :
    Storage.generate char_signed u s = (to_hex (djb2 (u ++ to_string s))).take 8 ∧
    ((Storage.shorten_url db char_signed urls u [] s).1 =
        .ok ((to_hex (djb2 (u ++ to_string s))).take 8) ∨
      ∃ e, (Storage.shorten_url db char_signed urls u [] s).1 = .error e) ∧
    (db.literal → sql_plain u →
      (Storage.shorten_url db char_signed urls u [] s =
          (.ok ((to_hex (djb2 (u ++ to_string s))).take 8),
            urls ++ [Link.mk ((to_hex (djb2 (u ++ to_string s))).take 8) u]) ∨
        (Storage.shorten_url db char_signed urls u [] s = (.error .sql_error, urls) ∧
          ∃ row ∈ urls, row.short_url = (to_hex (djb2 (u ++ to_string s))).take 8))) ∧
    (∀ str : CppString, (char_signed = false ∨ ∀ b ∈ str, b.val < 128) →
      Storage.simple_hash char_signed str = djb2 str) := by
  have hg := generate_eq_djb2 char_signed u s h
  refine ⟨hg, ?_, ?_, fun str hstr => simple_hash_eq_djb2 char_signed str hstr⟩
  · rw [← hg]
    exact shorten_url_generated_result db char_signed urls u s
  · intro hdb hu
    rw [← hg]
    exact shorten_url_generated_literal db hdb char_signed urls u s hu

/-- C5, witness: `http://example.com` with salt 1000. -/
theorem generated_code_is_djb2_witness :
    Storage.generate true (ascii "http://example.com") 1000 =
      (to_hex (djb2 (ascii "http://example.com" ++ to_string 1000))).take 8 :=
  (generated_code_is_djb2 (reference_db true) true [] (ascii "http://example.com") 1000
    (Or.inr (by decide!))).1

/-- C5 as stated fails where plain `char` is signed: a byte of 128 or more enters
the hash as a negative number.  For `http://example.com/` followed by the two bytes
of a UTF-8 `e` with acute accent the code is `5c8aa67a`, DJB2 on byte values gives
`5c8aa67c`. -/
theorem generated_code_counterexample :
    Storage.generate true (ascii "http://example.com/" ++ [0xC3, 0xA9]) 1000 =
      ascii "5c8aa67a" ∧
    (to_hex (djb2 (ascii "http://example.com/" ++ [0xC3, 0xA9] ++ to_string 1000))).take 8 =
      ascii "5c8aa67c" ∧
    Storage.simple_hash true [0xC3] = 177512 ∧
    djb2 [0xC3] = 177768 := by
  refine ⟨by decide!, by decide!, by decide!, by decide!⟩

/-! ## C6: redirect lookups -/

/-- C6, as amended.  For every GET request whose target starts with `/shorten/`, with
`code` the target without its first 9 characters, `code` containing no quote
character and no NUL byte: if the oldest Link the store holds for `code` (the only
one when codes are unique) has a non-empty long URL `L`, the response has status
301, the header `Location: L` and the body `{short_url: code, status: "success"}`; if
the store holds no Link for `code`, the response has status 404 and the body
`{message: "Short URL not found", status: "error"}`; the store is unchanged in every
case. -/
theorem get_redirect (parse : CppString → Option Json) (db : Database) (char_signed : Bool)
    (urls : Table) (target body : CppString) (salt : Nat)
    (hdb : db.literal)
    (hpre : List.isPrefixOf (ascii "/shorten/") target = true)
    (hplain : sql_plain (target.drop 9)) :
    (∀ link : Link,
        urls.find? (fun row => decide (row.short_url = target.drop 9)) = some link →
        link.long_url ≠ [] →
        Server.handle_request parse db char_signed urls ⟨.get, target, body⟩ salt =
          ({ result := .moved_permanently
             fields := [(.location, link.long_url)]
             body := .object [(ascii "short_url", .string (target.drop 9)),
               (ascii "status", .string (ascii "success"))] },
           urls) ∧
        Status.code (Server.handle_request parse db char_signed urls ⟨.get, target, body⟩
          salt).1.result = 301) ∧
    ((∀ row ∈ urls, row.short_url ≠ target.drop 9) →
        Server.handle_request parse db char_signed urls ⟨.get, target, body⟩ salt =
          ({ result := .not_found
             fields := [(.content_type, ascii "application/json")]
             body := .object [(ascii "message", .string (ascii "Short URL not found")),
               (ascii "status", .string (ascii "error"))] },
           urls) ∧
        Status.code (Server.handle_request parse db char_signed urls ⟨.get, target, body⟩
          salt).1.result = 404) ∧
    (Server.handle_request parse db char_signed urls ⟨.get, target, body⟩ salt).2 = urls := by
  refine ⟨?_, ?_, ?_⟩
  · intro link hfind hne
    have hg := get_original_url_found db hdb urls _ hplain link hfind
    have hr : Server.handle_request parse db char_signed urls ⟨.get, target, body⟩ salt =
          ({ result := .moved_permanently
             fields := [(.location, link.long_url)]
             body := .object [(ascii "short_url", .string (target.drop 9)),
               (ascii "status", .string (ascii "success"))] },
           urls) := by
      simp [Server.handle_request, route_get parse db char_signed urls target body salt hpre,
        hg, hne, make_json_response_success]
    exact ⟨hr, by rw [hr]; rfl⟩
  · intro habs
    have hg := get_original_url_absent db hdb urls _ hplain habs
    have hr : Server.handle_request parse db char_signed urls ⟨.get, target, body⟩ salt =
          ({ result := .not_found
             fields := [(.content_type, ascii "application/json")]
             body := .object [(ascii "message", .string (ascii "Short URL not found")),
               (ascii "status", .string (ascii "error"))] },
           urls) := by
      simp [Server.handle_request, route_get parse db char_signed urls target body salt hpre,
        hg, make_json_error_members]
    exact ⟨hr, by rw [hr]; rfl⟩
  · have hg := get_original_url_literal db hdb urls _ hplain
    rw [← Storage.get_original_url] at hg
    simp only [Server.handle_request, route_get parse db char_signed urls target body salt hpre,
      hg]
    split_ifs <;> rfl

/-- C6, witness: `GET /shorten/abc` with `abc -> http://example.com` held, and
`GET /shorten/zzzz99` for an unknown code. -/
theorem get_redirect_witness :
    (Server.handle_request (fun _ => none) (reference_db true) true
        [⟨ascii "abc", ascii "http://example.com"⟩] ⟨.get, ascii "/shorten/abc", []⟩ 1000 =
      ({ result := .moved_permanently
         fields := [(.location, ascii "http://example.com")]
         body := .object [(ascii "short_url", .string ((ascii "/shorten/abc").drop 9)),
           (ascii "status", .string (ascii "success"))] },
       [⟨ascii "abc", ascii "http://example.com"⟩]) ∧
      Status.code (Server.handle_request (fun _ => none) (reference_db true) true
        [⟨ascii "abc", ascii "http://example.com"⟩]
        ⟨.get, ascii "/shorten/abc", []⟩ 1000).1.result = 301) ∧
    (Server.handle_request (fun _ => none) (reference_db true) true
        [⟨ascii "abc", ascii "http://example.com"⟩] ⟨.get, ascii "/shorten/zzzz99", []⟩ 1000 =
      ({ result := .not_found
         fields := [(.content_type, ascii "application/json")]
         body := .object [(ascii "message", .string (ascii "Short URL not found")),
           (ascii "status", .string (ascii "error"))] },
       [⟨ascii "abc", ascii "http://example.com"⟩]) ∧
      Status.code (Server.handle_request (fun _ => none) (reference_db true) true
        [⟨ascii "abc", ascii "http://example.com"⟩]
        ⟨.get, ascii "/shorten/zzzz99", []⟩ 1000).1.result = 404) :=
  ⟨(get_redirect (fun _ => none) (reference_db true) true
      [⟨ascii "abc", ascii "http://example.com"⟩] (ascii "/shorten/abc") [] 1000
      (reference_db_literal true) (by decide) (by unfold sql_plain; decide!)).1
      ⟨ascii "abc", ascii "http://example.com"⟩ (by decide) (by decide),
   (get_redirect (fun _ => none) (reference_db true) true
      [⟨ascii "abc", ascii "http://example.com"⟩] (ascii "/shorten/zzzz99") [] 1000
      (reference_db_literal true) (by decide) (by unfold sql_plain; decide!)).2.1 (by decide)⟩

/-- C6 as stated fails: a Link with an empty long URL is answered with 404; of two
Links with the same code only the older one is served; and for the target
`/shorten/a'b`, whose code has no Link, the `SELECT` text is malformed, `txn.exec`
throws and the answer is 500. -/
theorem get_redirect_counterexample :
    (∃ row ∈ ([⟨ascii "abc", []⟩] : Table), row.short_url = (ascii "/shorten/abc").drop 9) ∧
    (Server.handle_request (fun _ => none) (reference_db true) true [⟨ascii "abc", []⟩]
      ⟨.get, ascii "/shorten/abc", []⟩ 1000).1.result = .not_found ∧
    (⟨ascii "abc", ascii "http://b"⟩ : Link) ∈
      ([⟨ascii "abc", ascii "http://a"⟩, ⟨ascii "abc", ascii "http://b"⟩] : Table) ∧
    (Server.handle_request (fun _ => none) (reference_db false) true
      [⟨ascii "abc", ascii "http://a"⟩, ⟨ascii "abc", ascii "http://b"⟩]
      ⟨.get, ascii "/shorten/abc", []⟩ 1000).1.fields = [(.location, ascii "http://a")] ∧
    (Server.handle_request (fun _ => none) (reference_db true) true []
      ⟨.get, ascii "/shorten/a'b", []⟩ 1000).1.result = .internal_server_error := by
  refine ⟨⟨_, List.mem_singleton.mpr rfl, by decide⟩, by decide!, by decide, by decide!,
    by decide!⟩

/-! ## C7: failing shorten requests -/

/-- C7, the code at the failing input.  A POST to `/shorten` with `short_path`
`a''''b` stores a Link for the code `a''b`.  A second POST then carries the
`short_path` `a''b`, which has that Link, with the URL `http://example.com`.  In the
`SELECT` and `INSERT` texts the doubled quote stands for one quote: the lookup is
for `a'b`, finds nothing, and the row `a'b` is written.  The answer is 200 and the
store has changed, with and without the uniqueness constraint. -/
theorem post_conflict_missed :
    (Server.handle_request
        (fun _ => some (.object [(ascii "short_path", .string (ascii "a''''b")),
          (ascii "url", .string (ascii "http://a"))]))
        (reference_db true) true [] ⟨.post, ascii "/shorten", []⟩ 1000).2 =
      [⟨ascii "a''b", ascii "http://a"⟩] ∧
    (∃ row ∈ ([⟨ascii "a''b", ascii "http://a"⟩] : Table), row.short_url = ascii "a''b") ∧
    (Server.handle_request
        (fun _ => some (.object [(ascii "short_path", .string (ascii "a''b")),
          (ascii "url", .string (ascii "http://example.com"))]))
        (reference_db true) true [⟨ascii "a''b", ascii "http://a"⟩]
        ⟨.post, ascii "/shorten", []⟩ 1000).1.result = .ok ∧
    (Server.handle_request
        (fun _ => some (.object [(ascii "short_path", .string (ascii "a''b")),
          (ascii "url", .string (ascii "http://example.com"))]))
        (reference_db true) true [⟨ascii "a''b", ascii "http://a"⟩]
        ⟨.post, ascii "/shorten", []⟩ 1000).2 =
      [⟨ascii "a''b", ascii "http://a"⟩, ⟨ascii "a'b", ascii "http://example.com"⟩] ∧
    (Server.handle_request
        (fun _ => some (.object [(ascii "short_path", .string (ascii "a''b")),
          (ascii "url", .string (ascii "http://example.com"))]))
        (reference_db false) true [⟨ascii "a''b", ascii "http://a"⟩]
        ⟨.post, ascii "/shorten", []⟩ 1000).2 =
      [⟨ascii "a''b", ascii "http://a"⟩, ⟨ascii "a'b", ascii "http://example.com"⟩] := by
  refine ⟨by decide!, ⟨_, List.mem_singleton.mpr rfl, rfl⟩, by decide!, by decide!,
    by decide!⟩

/-! ## C8: the shorten scenario -/

/-- C8, the code at the failing input.  `POST /shorten` with the URL
`http://example.com` on the empty store is answered 200 and stores the code
`163e0cdb`.  The same request again, with another salt, generates `163e0cdb`
again (`generate_example_com`: it does for every salt); under the uniqueness
constraint the `INSERT` is rejected and the answer is 500, the store unchanged. -/
theorem post_example_repeated :
    (Server.handle_request
        (fun _ => some (.object [(ascii "url", .string (ascii "http://example.com"))]))
        (reference_db true) true [] ⟨.post, ascii "/shorten", []⟩ 1000).1.result = .ok ∧
    (Server.handle_request
        (fun _ => some (.object [(ascii "url", .string (ascii "http://example.com"))]))
        (reference_db true) true [] ⟨.post, ascii "/shorten", []⟩ 1000).2 =
      [⟨ascii "163e0cdb", ascii "http://example.com"⟩] ∧
    (Server.handle_request
        (fun _ => some (.object [(ascii "url", .string (ascii "http://example.com"))]))
        (reference_db true) true [⟨ascii "163e0cdb", ascii "http://example.com"⟩]
        ⟨.post, ascii "/shorten", []⟩ 9999).1.result = .internal_server_error ∧
    (Server.handle_request
        (fun _ => some (.object [(ascii "url", .string (ascii "http://example.com"))]))
        (reference_db true) true [⟨ascii "163e0cdb", ascii "http://example.com"⟩]
        ⟨.post, ascii "/shorten", []⟩ 9999).2 =
      [⟨ascii "163e0cdb", ascii "http://example.com"⟩] := by
  refine ⟨by decide!, by decide!, by decide!, by decide!⟩

/-! ## C10: no empty long URL is stored -/

/-- C10, the code at the failing input.  `POST /shorten` with the URL `x'), ('k', '`
on the empty store passes the empty-URL check; the `INSERT` text then carries two
rows, and the row `k` with an empty long URL is stored.  The answer is 200, and
`get_original_url("k")` returns the empty string although `k` has a Link. -/
theorem router_stores_empty :
    (Server.handle_request
        (fun _ => some (.object [(ascii "url", .string (ascii "x'), ('k', '"))]))
        (reference_db true) true [] ⟨.post, ascii "/shorten", []⟩ 1000).1.result = .ok ∧
    (Server.handle_request
        (fun _ => some (.object [(ascii "url", .string (ascii "x'), ('k', '"))]))
        (reference_db true) true [] ⟨.post, ascii "/shorten", []⟩ 1000).2 =
      [⟨ascii "39708ca1", ascii "x"⟩, ⟨ascii "k", []⟩] ∧
    Storage.get_original_url (reference_db true)
        [⟨ascii "39708ca1", ascii "x"⟩, ⟨ascii "k", []⟩] (ascii "k") =
      (.ok [], [⟨ascii "39708ca1", ascii "x"⟩, ⟨ascii "k", []⟩]) := by
  refine ⟨by decide!, by decide!, by rfl⟩

end UrlShortener
